import Mathlib

/-!
Verification of the SkyTRACK SimConnect layer: the declared wire types of
src/skynet-client/src-tauri/simconnect-ffi/include/simconnect_minimal.h,
together with the typed decoding layer, schema registry and request session
that the design document specifies over those declarations.
-/

namespace SkyTrack

/-! ## C layout model

The header declares its receive structs under pragma pack(push, 1), so every
field alignment is 1 and a field offset is exactly the sum of the widths of
the fields before it. -/

/-- Size in bytes of the C type DWORD, declared as a typedef of unsigned
long.  SimConnect links only against the Windows ABIs (ILP32 on x86, LLP64
on x64), and on both of them unsigned long occupies 4 bytes. -/
def dwordSize : Nat := 4

/-- Byte offsets of the fields of a packed (pack 1) struct whose field
widths are given in declaration order, starting at a base offset. -/
def packedOffsets : Nat → List Nat → List Nat
  | _, [] => []
  | base, w :: ws => base :: packedOffsets (base + w) ws

/-- Total size in bytes of a packed (pack 1) struct with the given field
widths. -/
def structSize (ws : List Nat) : Nat := ws.sum

/-- Field widths of SIMCONNECT_RECV: dwSize, dwVersion, dwID, all DWORD. -/
def recvFields : List Nat := [dwordSize, dwordSize, dwordSize]

/-- Field widths of SIMCONNECT_RECV_SIMOBJECT_DATA: the embedded
SIMCONNECT_RECV followed by seven DWORD fields (dwRequestID, dwObjectID,
dwDefineID, dwFlags, dwentrynumber, dwoutof, dwDefineCount).  Packing is 1,
so the embedded struct contributes its fields at their own offsets. -/
def simobjFields : List Nat := recvFields ++ List.replicate 7 dwordSize

/-! ## Wire constants of the header -/

/-- SIMCONNECT_RECV_ID_OPEN, the message-kind tag of a connection-opened
frame. -/
def RECV_ID_OPEN : Nat := 2

/-- SIMCONNECT_RECV_ID_SIMOBJECT_DATA, the message-kind tag of a
simulation-object data frame. -/
def RECV_ID_SIMOBJECT_DATA : Nat := 8

/-- SIMCONNECT_OBJECT_ID_USER, the reserved object id denoting the user
aircraft. -/
def SIMCONNECT_OBJECT_ID_USER : Nat := 0

/-- SIMCONNECT_UNUSED, the reserved sentinel denoting an unused or absent
value. -/
def SIMCONNECT_UNUSED : Nat := 0xFFFFFFFF

/-! ## The closed datatype enum -/

/-- The SIMCONNECT_DATATYPE enum of the header: exactly three members. -/
inductive SIMCONNECT_DATATYPE
  | INT32
  | FLOAT64
  | STRING256
deriving DecidableEq

/-- Numeric wire code of each SIMCONNECT_DATATYPE member, as assigned in the
header. -/
def SIMCONNECT_DATATYPE.code : SIMCONNECT_DATATYPE → Nat
  | .INT32 => 1
  | .FLOAT64 => 4
  | .STRING256 => 8

/-- Payload width in bytes of each SIMCONNECT_DATATYPE member. -/
def SIMCONNECT_DATATYPE.byteWidth : SIMCONNECT_DATATYPE → Nat
  | .INT32 => 4
  | .FLOAT64 => 8
  | .STRING256 => 256

/-! ## The closed period enum -/

/-- The SIMCONNECT_PERIOD enum of the header: exactly five members. -/
inductive SIMCONNECT_PERIOD
  | NEVER
  | ONCE
  | VISUAL_FRAME
  | SIM_FRAME
  | SECOND
deriving DecidableEq

/-- Numeric code of each SIMCONNECT_PERIOD member, as assigned in the
header. -/
def SIMCONNECT_PERIOD.code : SIMCONNECT_PERIOD → Nat
  | .NEVER => 0
  | .ONCE => 1
  | .VISUAL_FRAME => 2
  | .SIM_FRAME => 3
  | .SECOND => 4

/-! ## Decoder data model

Modelled from the spec: the Binary Frame Decoder of section 4.2 is specified
by the design document over the packed structs of the header; its code is
not part of the repository fragment.  Buffers are lists of byte values. -/

/-- Primitive field types of a data definition (spec section 3). -/
inductive PrimitiveType
  | Int32
  | Float64
  | FixedString (n : Nat)
deriving DecidableEq

/-- Decode width in bytes of a primitive type (spec section 4.1): Int32 is
4, Float64 is 8, FixedString n is n. -/
def PrimitiveType.byteWidth : PrimitiveType → Nat
  | .Int32 => 4
  | .Float64 => 8
  | .FixedString n => n

/-- Modelled from the spec: the primitive shape each member of the closed
SIMCONNECT_DATATYPE enum decodes as. -/
def toPrimitive : SIMCONNECT_DATATYPE → PrimitiveType
  | .INT32 => .Int32
  | .FLOAT64 => .Float64
  | .STRING256 => .FixedString 256

/-! ## Little-endian byte reading -/

/-- Value of a little-endian byte list: first byte is least significant. -/
def readLE : List Nat → Nat
  | [] => 0
  | b :: bs => b + 256 * readLE bs

/-- Read the little-endian 32-bit unsigned field starting at byte offset
off of a buffer. -/
def readU32 (buf : List Nat) (off : Nat) : Nat :=
  readLE ((buf.drop off).take 4)

/-! ## Decoder result types -/

/-- Decoded value of one field of a data definition.  A Float64 value is
carried as its 8-byte little-endian bit pattern, exactly the bytes the wire
holds; a FixedString value is the byte text up to the first NUL. -/
inductive FieldValue
  | int32 (v : Int)
  | float64 (bits : Nat)
  | fixedString (s : List Nat)
deriving DecidableEq

/-- Decode errors of the frame decoder (spec section 7). -/
inductive DecodeError
  | TruncatedHeader
  | SizeMismatch
  | UnknownDefinition
  | PayloadTooShort
deriving DecidableEq

/-- Decoded SimObjectData event: the seven sub-header fields and the typed
payload values in registration order. -/
structure SimObjectEvent where
  requestId : Nat
  objectId : Nat
  defineId : Nat
  flags : Nat
  entryNumber : Nat
  outOf : Nat
  defineCount : Nat
  values : List FieldValue
deriving DecidableEq

/-- Decoded frame (spec section 4.2): connection-opened, simulation-object
data, or a forward-compatible pass-through of an unknown kind. -/
inductive Frame
  | ConnectionOpened (version : Nat)
  | SimObjectData (ev : SimObjectEvent)
  | Unrecognized (kind : Nat)
deriving DecidableEq

instance {ε α : Type} [DecidableEq ε] [DecidableEq α] :
    DecidableEq (Except ε α) := fun x y =>
  match x, y with
  | .ok a, .ok b =>
    if h : a = b then isTrue (by rw [h])
    else isFalse (fun he => h (Except.ok.inj he))
  | .error a, .error b =>
    if h : a = b then isTrue (by rw [h])
    else isFalse (fun he => h (Except.error.inj he))
  | .ok _, .error _ => isFalse (fun he => Except.noConfusion he)
  | .error _, .ok _ => isFalse (fun he => Except.noConfusion he)

/-! ## Field decoding -/

/-- Modelled from the spec: decode one field of the given primitive type
from the front of a byte list.  Int32 is a little-endian two-complement
32-bit value, Float64 an 8-byte little-endian bit pattern, FixedString n
is n bytes decoded as text up to the first NUL byte. -/
def decodeField : PrimitiveType → List Nat → FieldValue
  | .Int32, bs =>
    .int32 (if readLE (bs.take 4) < 2 ^ 31 then (readLE (bs.take 4) : Int)
            else (readLE (bs.take 4) : Int) - 2 ^ 32)
  | .Float64, bs => .float64 (readLE (bs.take 8))
  | .FixedString n, bs => .fixedString ((bs.take n).takeWhile (fun b => b != 0))

/-- Modelled from the spec: walk a layout, summing byte widths, decoding
each field from the remaining bytes; fails with PayloadTooShort when the
remaining bytes are insufficient for the declared layout. -/
def decodeFields : List PrimitiveType → List Nat → Except DecodeError (List FieldValue)
  | [], _ => .ok []
  | t :: ts, bs =>
    if bs.length < t.byteWidth then .error .PayloadTooShort
    else
      match decodeFields ts (bs.drop t.byteWidth) with
      | .error e => .error e
      | .ok vs => .ok (decodeField t bs :: vs)

/-- Modelled from the spec: decode one complete inbound frame (section 4.2).
The registry argument is the layout table of the Schema Registry, mapping a
definition id to its ordered field layout.  Validates the 12-byte header,
checks the declared size against the actual buffer length, then dispatches
on the message-kind tag. -/
def decode (reg : Nat → Option (List PrimitiveType)) (buf : List Nat) :
    Except DecodeError Frame :=
  if buf.length < 12 then .error .TruncatedHeader
  else if readU32 buf 0 = buf.length then
    if readU32 buf 8 = RECV_ID_OPEN then .ok (.ConnectionOpened (readU32 buf 4))
    else if readU32 buf 8 = RECV_ID_SIMOBJECT_DATA then
      if buf.length < 40 then .error .PayloadTooShort
      else
        match reg (readU32 buf 20) with
        | none => .error .UnknownDefinition
        | some layout =>
          match decodeFields layout (buf.drop 40) with
          | .error e => .error e
          | .ok vs => .ok (.SimObjectData
              ⟨readU32 buf 12, readU32 buf 16, readU32 buf 20, readU32 buf 24,
               readU32 buf 28, readU32 buf 32, readU32 buf 36, vs⟩)
    else .ok (.Unrecognized (readU32 buf 8))
  else .error .SizeMismatch

/-! ## Encoder

Modelled from the spec: section 8 requires that decoding a SimObjectData
frame built by encoding known values through the same layout round-trips;
these definitions build such a frame bit-exactly per section 6. -/

/-- Little-endian encoding of a value into k bytes, least significant
first. -/
def encodeLE : Nat → Nat → List Nat
  | 0, _ => []
  | k + 1, v => v % 256 :: encodeLE k (v / 256)

/-- Concatenated little-endian 32-bit encodings of a list of field
values. -/
def encodeU32s : List Nat → List Nat
  | [] => []
  | x :: xs => encodeLE 4 x ++ encodeU32s xs

/-- Caller-supplied field value to encode through a layout. -/
inductive FieldInput
  | int32 (v : Int)
  | float64 (bits : Nat)
  | fixedString (s : List Nat)
deriving DecidableEq

/-- A field value conforms to a primitive type when it fits the wire shape
of that type: a 32-bit two-complement integer, a 64-bit pattern, or at most
n text bytes for FixedString n. -/
def conformsOne : PrimitiveType → FieldInput → Bool
  | .Int32, .int32 v => decide (-(2 ^ 31) ≤ v) && decide (v < 2 ^ 31)
  | .Float64, .float64 b => decide (b < 2 ^ 64)
  | .FixedString n, .fixedString s =>
    decide (s.length ≤ n) && s.all (fun b => b < 256)
  | _, _ => false

/-- Pointwise conformance of a value sequence to a layout. -/
def conformsList : List PrimitiveType → List FieldInput → Bool
  | [], [] => true
  | t :: ts, v :: vs => conformsOne t v && conformsList ts vs
  | _, _ => false

/-- Modelled from the spec: encode one field value at the wire shape of its
primitive type: Int32 as 4 little-endian two-complement bytes, Float64 as
its 8-byte little-endian pattern, FixedString n as the text bytes padded
with NUL to n bytes. -/
def encodeField : PrimitiveType → FieldInput → List Nat
  | .Int32, .int32 v => encodeLE 4 (v % 2 ^ 32).toNat
  | .Float64, .float64 b => encodeLE 8 b
  | .FixedString n, .fixedString s => s ++ List.replicate (n - s.length) 0
  | _, _ => []

/-- The value the decoder recovers for a conforming input: Int32 and
Float64 exactly, FixedString up to the first NUL byte. -/
def roundtripValue : PrimitiveType → FieldInput → FieldValue
  | .Int32, .int32 v => .int32 v
  | .Float64, .float64 b => .float64 b
  | .FixedString _, .fixedString s =>
    .fixedString (s.takeWhile (fun b => b != 0))
  | _, _ => .int32 0

/-- Total payload width in bytes of a layout. -/
def layoutWidth (layout : List PrimitiveType) : Nat :=
  (layout.map PrimitiveType.byteWidth).sum

/-- Modelled from the spec: the complete wire frame of a SimObjectData
message carrying the given header scalars and the encodings of the given
values through the given layout; the declared size field is the total frame
length (section 6). -/
def encodeSimObjectFrame (version requestId objectId defineId flags
    entryNumber outOf defineCount : Nat) (layout : List PrimitiveType)
    (vals : List FieldInput) : List Nat :=
  encodeU32s
    [40 + (List.zipWith encodeField layout vals).flatten.length, version,
     RECV_ID_SIMOBJECT_DATA, requestId, objectId, defineId, flags,
     entryNumber, outOf, defineCount] ++
  (List.zipWith encodeField layout vals).flatten

/-! ## Request session model

Modelled from the spec: the Request Session of section 4.3 and the
single-threaded pump of section 5; its code is not part of the repository
fragment.  The state tracks which requestIds have a standing periodic
subscription and the requestIds of queued, undelivered events. -/

/-- Session state: standing periodic subscriptions and queued events, both
keyed by requestId. -/
structure Session where
  active : List Nat
  queue : List Nat
deriving DecidableEq

/-- Modelled from the spec: requestData for a requestId.  A periodic period
adds a standing subscription; ONCE enqueues a single delivery; NEVER
cancels a prior periodic request with the same requestId and discards its
pending deliveries. -/
def requestData (s : Session) (id : Nat) (p : SIMCONNECT_PERIOD) : Session :=
  match p with
  | .NEVER =>
    ⟨s.active.filter (fun j => j != id), s.queue.filter (fun j => j != id)⟩
  | .ONCE => ⟨s.active, s.queue ++ [id]⟩
  | .VISUAL_FRAME => ⟨id :: s.active, s.queue⟩
  | .SIM_FRAME => ⟨id :: s.active, s.queue⟩
  | .SECOND => ⟨id :: s.active, s.queue⟩

/-- One step of the session pump: the external source delivers a frame for
a standing subscription, the application issues a request, or the pump
drains one queued event. -/
inductive SessionStep
  | deliver (id : Nat)
  | request (id : Nat) (p : SIMCONNECT_PERIOD)
  | drainOne
deriving DecidableEq

/-- Effect of one pump step on the session state; the external source
delivers only for requestIds with a standing subscription. -/
def applyStep (s : Session) : SessionStep → Session
  | .deliver id => if id ∈ s.active then ⟨s.active, s.queue ++ [id]⟩ else s
  | .request id p => requestData s id p
  | .drainOne => ⟨s.active, s.queue.tail⟩

/-- Effect of a sequence of pump steps. -/
def applySteps (s : Session) : List SessionStep → Session
  | [] => s
  | st :: sts => applySteps (applyStep s st) sts

/-- Outcome of polling for one requestId. -/
inductive PollOutcome
  | Event
  | NoneAvailable
deriving DecidableEq

/-- Poll view for one requestId: an event when one is queued for it,
NoneAvailable otherwise. -/
def pollFor (s : Session) (id : Nat) : PollOutcome :=
  if id ∈ s.queue then .Event else .NoneAvailable

/-- True when a step issues a new request for the given requestId. -/
def requestsFor (id : Nat) : SessionStep → Bool
  | .request j _ => j == id
  | _ => false

/-- No step of the list issues a request for the given requestId. -/
def noRequestFor (id : Nat) (steps : List SessionStep) : Bool :=
  steps.all (fun st => !(requestsFor id st))

/-! ## Schema registry identifier assignment

Modelled from the spec: VariableIds are opaque 32-bit identifiers assigned
at registration time, unique within a session; the sentinel
SIMCONNECT_UNUSED denotes an absent value and is never assigned. -/

/-- Registry state: the assignment counter and the identifiers assigned so
far. -/
structure SchemaRegistry where
  nextId : Nat
  assigned : List Nat
deriving DecidableEq

/-- The fresh registry of a new session. -/
def SchemaRegistry.empty : SchemaRegistry := ⟨0, []⟩

/-- Register one variable: the 32-bit identifier assigned is the counter
value. -/
def SchemaRegistry.register (r : SchemaRegistry) : SchemaRegistry × Nat :=
  (⟨r.nextId + 1, r.nextId % 2 ^ 32 :: r.assigned⟩, r.nextId % 2 ^ 32)

/-- The registry after k successive registrations in one session. -/
def registerN : Nat → SchemaRegistry
  | 0 => SchemaRegistry.empty
  | k + 1 => (SchemaRegistry.register (registerN k)).1

end SkyTrack

namespace SkyTrack

/-- C1: the declared receive header SIMCONNECT_RECV is three packed 4-byte
unsigned fields at offsets 0, 4 and 8, with total size 12 and no padding. -/
theorem recv_header_layout :
    recvFields = [4, 4, 4] ∧
    packedOffsets 0 recvFields = [0, 4, 8] ∧
    structSize recvFields = 12 := by
  refine ⟨rfl, rfl, rfl⟩

/-- C2: the declared SIMCONNECT_RECV_SIMOBJECT_DATA struct is the 12-byte
header followed by seven packed 4-byte unsigned fields at offsets 12, 16,
20, 24, 28, 32, 36, so the variable-length payload begins at byte offset
40. -/
theorem simobject_data_layout :
    simobjFields = [4, 4, 4, 4, 4, 4, 4, 4, 4, 4] ∧
    packedOffsets 0 simobjFields = [0, 4, 8, 12, 16, 20, 24, 28, 32, 36] ∧
    (packedOffsets 0 simobjFields).drop 3 = [12, 16, 20, 24, 28, 32, 36] ∧
    structSize simobjFields = 40 := by
  refine ⟨rfl, rfl, rfl, rfl⟩

/-- C10: the numeric wire codes of the closed SIMCONNECT_DATATYPE enum are
vendor-assigned tags, not byte widths: Int32 is tagged 1 (width 4), Float64
is tagged 4 (width 8), the only fixed-length string expressible through the
declared interface is the 256-byte string tagged 8 (width 256), and no
member beyond these three exists. -/
theorem datatype_codes :
    SIMCONNECT_DATATYPE.INT32.code = 1 ∧
    SIMCONNECT_DATATYPE.FLOAT64.code = 4 ∧
    SIMCONNECT_DATATYPE.STRING256.code = 8 ∧
    (∀ t : SIMCONNECT_DATATYPE,
      t = .INT32 ∨ t = .FLOAT64 ∨ t = .STRING256) ∧
    (∀ t : SIMCONNECT_DATATYPE,
      toPrimitive t = .Int32 ∨ toPrimitive t = .Float64 ∨
      toPrimitive t = .FixedString 256) ∧
    SIMCONNECT_DATATYPE.INT32.code ≠ SIMCONNECT_DATATYPE.INT32.byteWidth ∧
    SIMCONNECT_DATATYPE.FLOAT64.code ≠ SIMCONNECT_DATATYPE.FLOAT64.byteWidth ∧
    SIMCONNECT_DATATYPE.STRING256.code ≠ SIMCONNECT_DATATYPE.STRING256.byteWidth := by
  refine ⟨rfl, rfl, rfl, ?_, ?_, by decide, by decide, by decide⟩
  · intro t; cases t <;> simp
  · intro t; cases t <;> simp [toPrimitive]

/-- C3: decode on any buffer shorter than 12 bytes fails with
TruncatedHeader, for every registry; the result does not depend on the
bytes of the buffer, only on its length being short. -/
theorem decode_truncated_header (reg : Nat → Option (List PrimitiveType))
    (buf : List Nat) (h : buf.length < 12) :
    decode reg buf = .error .TruncatedHeader := by
  unfold decode
  rw [if_pos h]

/-- Witness for C3 at a concrete 3-byte buffer. -/
theorem decode_truncated_header_witness :
    ([5, 6, 7] : List Nat).length < 12 ∧
    decode (fun _ => none) [5, 6, 7] = .error .TruncatedHeader :=
  ⟨by decide, decode_truncated_header (fun _ => none) [5, 6, 7] (by decide)⟩

/-- C4: on a buffer of length at least 12 whose declared size field is not
the actual buffer length, decode fails with SizeMismatch; and decode
returns a frame only when the declared size equals the buffer length. -/
theorem decode_size_mismatch :
    (∀ (reg : Nat → Option (List PrimitiveType)) (buf : List Nat),
      12 ≤ buf.length → readU32 buf 0 ≠ buf.length →
      decode reg buf = .error .SizeMismatch) ∧
    (∀ (reg : Nat → Option (List PrimitiveType)) (buf : List Nat) (f : Frame),
      decode reg buf = .ok f → readU32 buf 0 = buf.length) := by
  constructor
  · intro reg buf h1 h2
    unfold decode
    rw [if_neg (by omega), if_neg h2]
  · intro reg buf f h
    unfold decode at h
    split at h
    · simp at h
    · split at h
      · assumption
      · simp at h

/-- Witness for C4: a 12-byte buffer declaring size 13 is rejected with
SizeMismatch, and a well-formed 12-byte open frame decodes successfully
with its declared size equal to its length. -/
theorem decode_size_mismatch_witness :
    (12 ≤ ([13, 0, 0, 0, 0, 0, 0, 0, 2, 0, 0, 0] : List Nat).length ∧
     readU32 [13, 0, 0, 0, 0, 0, 0, 0, 2, 0, 0, 0] 0 ≠
       ([13, 0, 0, 0, 0, 0, 0, 0, 2, 0, 0, 0] : List Nat).length ∧
     decode (fun _ => none) [13, 0, 0, 0, 0, 0, 0, 0, 2, 0, 0, 0] =
       .error .SizeMismatch) ∧
    (decode (fun _ => none) [12, 0, 0, 0, 9, 0, 0, 0, 2, 0, 0, 0] =
       .ok (.ConnectionOpened 9) ∧
     readU32 [12, 0, 0, 0, 9, 0, 0, 0, 2, 0, 0, 0] 0 =
       ([12, 0, 0, 0, 9, 0, 0, 0, 2, 0, 0, 0] : List Nat).length) :=
  ⟨⟨by decide, by decide,
    decode_size_mismatch.1 (fun _ => none) _ (by decide) (by decide)⟩,
   ⟨by decide,
    decode_size_mismatch.2 (fun _ => none) _ (Frame.ConnectionOpened 9) (by decide)⟩⟩

/-- C6: the message-kind tag dispatched on by the decoder is 2 for Open and
8 for SimObjectData; a well-formed frame with kind 2 decodes to
ConnectionOpened, kinds 2 and 8 never fall through to the Unrecognized
pass-through, and every other kind does. -/
theorem kind_dispatch_codes :
    RECV_ID_OPEN = 2 ∧ RECV_ID_SIMOBJECT_DATA = 8 ∧
    (∀ (reg : Nat → Option (List PrimitiveType)) (buf : List Nat),
      12 ≤ buf.length → readU32 buf 0 = buf.length →
      readU32 buf 8 = RECV_ID_OPEN →
      decode reg buf = .ok (.ConnectionOpened (readU32 buf 4))) ∧
    (∀ (reg : Nat → Option (List PrimitiveType)) (buf : List Nat) (k : Nat),
      decode reg buf = .ok (.Unrecognized k) →
      k ≠ RECV_ID_OPEN ∧ k ≠ RECV_ID_SIMOBJECT_DATA) ∧
    (∀ (reg : Nat → Option (List PrimitiveType)) (buf : List Nat),
      12 ≤ buf.length → readU32 buf 0 = buf.length →
      readU32 buf 8 ≠ RECV_ID_OPEN → readU32 buf 8 ≠ RECV_ID_SIMOBJECT_DATA →
      decode reg buf = .ok (.Unrecognized (readU32 buf 8))) := by
  refine ⟨rfl, rfl, ?_, ?_, ?_⟩
  · intro reg buf h1 h2 h3
    unfold decode
    rw [if_neg (by omega), if_pos h2, if_pos h3]
  · intro reg buf k h
    unfold decode at h
    repeat' split at h
    all_goals simp_all
  · intro reg buf h1 h2 h3 h4
    unfold decode
    rw [if_neg (by omega), if_pos h2, if_neg h3, if_neg h4]

/-- Witness for C6: a concrete kind-2 frame decodes to ConnectionOpened,
and a concrete kind-99 frame decodes to the Unrecognized pass-through with
99 distinct from both dedicated codes. -/
theorem kind_dispatch_codes_witness :
    (12 ≤ ([12, 0, 0, 0, 7, 0, 0, 0, 2, 0, 0, 0] : List Nat).length ∧
     readU32 [12, 0, 0, 0, 7, 0, 0, 0, 2, 0, 0, 0] 0 =
       ([12, 0, 0, 0, 7, 0, 0, 0, 2, 0, 0, 0] : List Nat).length ∧
     readU32 [12, 0, 0, 0, 7, 0, 0, 0, 2, 0, 0, 0] 8 = RECV_ID_OPEN ∧
     decode (fun _ => none) [12, 0, 0, 0, 7, 0, 0, 0, 2, 0, 0, 0] =
       .ok (.ConnectionOpened 7)) ∧
    (decode (fun _ => none) [12, 0, 0, 0, 0, 0, 0, 0, 99, 0, 0, 0] =
       .ok (.Unrecognized 99) ∧
     (99 : Nat) ≠ RECV_ID_OPEN ∧ (99 : Nat) ≠ RECV_ID_SIMOBJECT_DATA) :=
  ⟨⟨by decide, by decide, by decide,
    kind_dispatch_codes.2.2.1 (fun _ => none) _ (by decide) (by decide) (by decide)⟩,
   ⟨by decide,
    kind_dispatch_codes.2.2.2.1 (fun _ => none)
      [12, 0, 0, 0, 0, 0, 0, 0, 99, 0, 0, 0] 99 (by decide)⟩⟩

/-- C7: a well-formed frame whose kind is neither 2 nor 8 decodes
successfully to Unrecognized carrying that kind, not to an error. -/
theorem decode_unrecognized_kind (reg : Nat → Option (List PrimitiveType))
    (buf : List Nat) (h1 : 12 ≤ buf.length) (h2 : readU32 buf 0 = buf.length)
    (h3 : readU32 buf 8 ≠ RECV_ID_OPEN)
    (h4 : readU32 buf 8 ≠ RECV_ID_SIMOBJECT_DATA) :
    decode reg buf = .ok (.Unrecognized (readU32 buf 8)) := by
  unfold decode
  rw [if_neg (by omega), if_pos h2, if_neg h3, if_neg h4]

/-- Witness for C7 at the spec example: a well-formed frame of unknown kind
99 decodes to Unrecognized 99. -/
theorem decode_unrecognized_kind_witness :
    12 ≤ ([12, 0, 0, 0, 3, 0, 0, 0, 99, 0, 0, 0] : List Nat).length ∧
    readU32 [12, 0, 0, 0, 3, 0, 0, 0, 99, 0, 0, 0] 0 =
      ([12, 0, 0, 0, 3, 0, 0, 0, 99, 0, 0, 0] : List Nat).length ∧
    readU32 [12, 0, 0, 0, 3, 0, 0, 0, 99, 0, 0, 0] 8 ≠ RECV_ID_OPEN ∧
    readU32 [12, 0, 0, 0, 3, 0, 0, 0, 99, 0, 0, 0] 8 ≠ RECV_ID_SIMOBJECT_DATA ∧
    decode (fun _ => none) [12, 0, 0, 0, 3, 0, 0, 0, 99, 0, 0, 0] =
      .ok (.Unrecognized 99) :=
  ⟨by decide, by decide, by decide, by decide,
   decode_unrecognized_kind (fun _ => none) _ (by decide) (by decide)
     (by decide) (by decide)⟩

/-! ## Round-trip helper lemmas -/

theorem encodeLE_length (k v : Nat) : (encodeLE k v).length = k := by
  induction k generalizing v with
  | zero => rfl
  | succ k ih => simp [encodeLE, ih]

theorem readLE_encodeLE (k v : Nat) : readLE (encodeLE k v) = v % 256 ^ k := by
  induction k generalizing v with
  | zero => simp [encodeLE, readLE, Nat.mod_one]
  | succ k ih =>
    show readLE (v % 256 :: encodeLE k (v / 256)) = v % 256 ^ (k + 1)
    rw [readLE, ih, pow_succ', Nat.mod_mul]

theorem readU32_encodeU32s (xs p : List Nat) (i : Nat) (h : i < xs.length) :
    readU32 (encodeU32s xs ++ p) (4 * i) = xs.getD i 0 % 2 ^ 32 := by
  induction xs generalizing i with
  | nil => simp at h
  | cons x xs ih =>
    cases i with
    | zero =>
      show readLE ((((encodeLE 4 x ++ encodeU32s xs) ++ p).drop 0).take 4) =
        x % 2 ^ 32
      rw [List.drop_zero, List.append_assoc,
        List.take_left' (encodeLE_length 4 x), readLE_encodeLE]
      norm_num
    | succ j =>
      have h' : j < xs.length := by simpa using h
      exact ih j h'

theorem drop_encodeU32s (xs p : List Nat) :
    (encodeU32s xs ++ p).drop (4 * xs.length) = p := by
  induction xs with
  | nil => simp [encodeU32s]
  | cons x xs ih => exact ih

theorem encodeU32s_length (xs : List Nat) :
    (encodeU32s xs).length = 4 * xs.length := by
  induction xs with
  | nil => rfl
  | cons x xs ih =>
    show (encodeLE 4 x ++ encodeU32s xs).length = 4 * (xs.length + 1)
    rw [List.length_append, encodeLE_length, ih]
    ring

theorem takeWhile_append_replicate_zero (s : List Nat) (k : Nat) :
    (s ++ List.replicate k 0).takeWhile (fun b => b != 0) =
      s.takeWhile (fun b => b != 0) := by
  induction s with
  | nil =>
    simp only [List.nil_append, List.takeWhile_nil]
    cases k with
    | zero => rfl
    | succ k =>
      rw [List.replicate_succ, List.takeWhile_cons_of_neg (by simp)]
  | cons a s ih =>
    by_cases ha : a = 0
    · subst ha
      rw [List.cons_append, List.takeWhile_cons_of_neg (by simp),
        List.takeWhile_cons_of_neg (by simp)]
    · rw [List.cons_append, List.takeWhile_cons_of_pos (by simp [ha]),
        List.takeWhile_cons_of_pos (by simp [ha]), ih]

theorem encodeField_length (t : PrimitiveType) (v : FieldInput)
    (h : conformsOne t v = true) :
    (encodeField t v).length = t.byteWidth := by
  cases t with
  | Int32 =>
    cases v with
    | int32 v => simp [encodeField, PrimitiveType.byteWidth, encodeLE_length]
    | float64 b => exact Bool.noConfusion h
    | fixedString s => exact Bool.noConfusion h
  | Float64 =>
    cases v with
    | int32 v => exact Bool.noConfusion h
    | float64 b => simp [encodeField, PrimitiveType.byteWidth, encodeLE_length]
    | fixedString s => exact Bool.noConfusion h
  | FixedString n =>
    cases v with
    | int32 v => exact Bool.noConfusion h
    | float64 b => exact Bool.noConfusion h
    | fixedString s =>
      simp only [conformsOne, Bool.and_eq_true, decide_eq_true_eq] at h
      simp only [encodeField, PrimitiveType.byteWidth, List.length_append,
        List.length_replicate]
      omega

theorem decodeField_encodeField (t : PrimitiveType) (v : FieldInput)
    (rest : List Nat) (h : conformsOne t v = true) :
    decodeField t (encodeField t v ++ rest) = roundtripValue t v := by
  cases t with
  | Int32 =>
    cases v with
    | int32 v =>
      simp only [conformsOne, Bool.and_eq_true, decide_eq_true_eq] at h
      obtain ⟨ha, hb⟩ := h
      have h0 : (0 : Int) ≤ v % 2 ^ 32 := Int.emod_nonneg v (by norm_num)
      have h1 : v % 2 ^ 32 < 2 ^ 32 := Int.emod_lt_of_pos v (by norm_num)
      have hu : ((v % 2 ^ 32).toNat : Int) = v % 2 ^ 32 := Int.toNat_of_nonneg h0
      simp only [encodeField, decodeField, roundtripValue]
      rw [List.take_left' (encodeLE_length 4 _), readLE_encodeLE]
      have hmod : (v % 2 ^ 32).toNat % 256 ^ 4 = (v % 2 ^ 32).toNat := by
        apply Nat.mod_eq_of_lt
        omega
      rw [hmod]
      congr 1
      split
      · omega
      · omega
    | float64 b => exact Bool.noConfusion h
    | fixedString s => exact Bool.noConfusion h
  | Float64 =>
    cases v with
    | int32 v => exact Bool.noConfusion h
    | float64 b =>
      simp only [conformsOne, decide_eq_true_eq] at h
      simp only [encodeField, decodeField, roundtripValue]
      rw [List.take_left' (encodeLE_length 8 _), readLE_encodeLE,
        Nat.mod_eq_of_lt (by norm_num at h ⊢; omega)]
    | fixedString s => exact Bool.noConfusion h
  | FixedString n =>
    cases v with
    | int32 v => exact Bool.noConfusion h
    | float64 b => exact Bool.noConfusion h
    | fixedString s =>
      simp only [conformsOne, Bool.and_eq_true, decide_eq_true_eq] at h
      obtain ⟨h1, h2⟩ := h
      simp only [encodeField, decodeField, roundtripValue]
      have hl : (s ++ List.replicate (n - s.length) 0).length = n := by
        simp only [List.length_append, List.length_replicate]
        omega
      rw [List.take_left' hl, takeWhile_append_replicate_zero]

theorem encode_payload_length (layout : List PrimitiveType)
    (vals : List FieldInput) (h : conformsList layout vals = true) :
    (List.zipWith encodeField layout vals).flatten.length =
      layoutWidth layout := by
  induction layout generalizing vals with
  | nil =>
    cases vals with
    | nil => rfl
    | cons v vs => exact Bool.noConfusion h
  | cons t ts ih =>
    cases vals with
    | nil => exact Bool.noConfusion h
    | cons v vs =>
      rw [show conformsList (t :: ts) (v :: vs) =
        (conformsOne t v && conformsList ts vs) from rfl,
        Bool.and_eq_true] at h
      obtain ⟨h1, h2⟩ := h
      rw [List.zipWith_cons_cons, List.flatten_cons]
      show (encodeField t v ++ (List.zipWith encodeField ts vs).flatten).length
        = t.byteWidth + layoutWidth ts
      rw [List.length_append, encodeField_length t v h1, ih vs h2]

theorem decodeFields_encode (layout : List PrimitiveType)
    (vals : List FieldInput) (h : conformsList layout vals = true) :
    decodeFields layout (List.zipWith encodeField layout vals).flatten =
      .ok (List.zipWith roundtripValue layout vals) := by
  induction layout generalizing vals with
  | nil =>
    cases vals with
    | nil => rfl
    | cons v vs => exact Bool.noConfusion h
  | cons t ts ih =>
    cases vals with
    | nil => exact Bool.noConfusion h
    | cons v vs =>
      rw [show conformsList (t :: ts) (v :: vs) =
        (conformsOne t v && conformsList ts vs) from rfl,
        Bool.and_eq_true] at h
      obtain ⟨h1, h2⟩ := h
      have hw := encodeField_length t v h1
      rw [List.zipWith_cons_cons, List.flatten_cons]
      simp only [decodeFields]
      rw [if_neg (show ¬ ((encodeField t v ++
          (List.zipWith encodeField ts vs).flatten).length < t.byteWidth) by
        rw [List.length_append, hw]; omega)]
      rw [List.drop_left' hw, ih vs h2]
      simp [decodeField_encodeField t v
        ((List.zipWith encodeField ts vs).flatten) h1]

/-- Shared frame-read lemma: the ten 32-bit header and sub-header fields of
an encoded frame read back at their offsets, and the payload starts at byte
40. -/
theorem readU32_frame (a0 a1 a2 a3 a4 a5 a6 a7 a8 a9 : Nat) (p : List Nat) :
    readU32 (encodeU32s [a0, a1, a2, a3, a4, a5, a6, a7, a8, a9] ++ p) 0 =
      a0 % 2 ^ 32 ∧
    readU32 (encodeU32s [a0, a1, a2, a3, a4, a5, a6, a7, a8, a9] ++ p) 8 =
      a2 % 2 ^ 32 ∧
    readU32 (encodeU32s [a0, a1, a2, a3, a4, a5, a6, a7, a8, a9] ++ p) 12 =
      a3 % 2 ^ 32 ∧
    readU32 (encodeU32s [a0, a1, a2, a3, a4, a5, a6, a7, a8, a9] ++ p) 16 =
      a4 % 2 ^ 32 ∧
    readU32 (encodeU32s [a0, a1, a2, a3, a4, a5, a6, a7, a8, a9] ++ p) 20 =
      a5 % 2 ^ 32 ∧
    readU32 (encodeU32s [a0, a1, a2, a3, a4, a5, a6, a7, a8, a9] ++ p) 24 =
      a6 % 2 ^ 32 ∧
    readU32 (encodeU32s [a0, a1, a2, a3, a4, a5, a6, a7, a8, a9] ++ p) 28 =
      a7 % 2 ^ 32 ∧
    readU32 (encodeU32s [a0, a1, a2, a3, a4, a5, a6, a7, a8, a9] ++ p) 32 =
      a8 % 2 ^ 32 ∧
    readU32 (encodeU32s [a0, a1, a2, a3, a4, a5, a6, a7, a8, a9] ++ p) 36 =
      a9 % 2 ^ 32 ∧
    (encodeU32s [a0, a1, a2, a3, a4, a5, a6, a7, a8, a9] ++ p).drop 40 = p :=
  ⟨readU32_encodeU32s [a0, a1, a2, a3, a4, a5, a6, a7, a8, a9] p 0 (by norm_num),
   readU32_encodeU32s [a0, a1, a2, a3, a4, a5, a6, a7, a8, a9] p 2 (by norm_num),
   readU32_encodeU32s [a0, a1, a2, a3, a4, a5, a6, a7, a8, a9] p 3 (by norm_num),
   readU32_encodeU32s [a0, a1, a2, a3, a4, a5, a6, a7, a8, a9] p 4 (by norm_num),
   readU32_encodeU32s [a0, a1, a2, a3, a4, a5, a6, a7, a8, a9] p 5 (by norm_num),
   readU32_encodeU32s [a0, a1, a2, a3, a4, a5, a6, a7, a8, a9] p 6 (by norm_num),
   readU32_encodeU32s [a0, a1, a2, a3, a4, a5, a6, a7, a8, a9] p 7 (by norm_num),
   readU32_encodeU32s [a0, a1, a2, a3, a4, a5, a6, a7, a8, a9] p 8 (by norm_num),
   readU32_encodeU32s [a0, a1, a2, a3, a4, a5, a6, a7, a8, a9] p 9 (by norm_num),
   drop_encodeU32s [a0, a1, a2, a3, a4, a5, a6, a7, a8, a9] p⟩

/-- Shared dispatch lemma: the exact result of decode on a well-formed
SimObjectData frame. -/
theorem decode_simobject (reg : Nat → Option (List PrimitiveType))
    (buf : List Nat) (h1 : ¬ buf.length < 12)
    (h2 : readU32 buf 0 = buf.length)
    (h3 : readU32 buf 8 = RECV_ID_SIMOBJECT_DATA)
    (h4 : ¬ buf.length < 40) (layout : List PrimitiveType)
    (h5 : reg (readU32 buf 20) = some layout) (vs : List FieldValue)
    (h6 : decodeFields layout (buf.drop 40) = .ok vs) :
    decode reg buf = .ok (.SimObjectData
      ⟨readU32 buf 12, readU32 buf 16, readU32 buf 20, readU32 buf 24,
       readU32 buf 28, readU32 buf 32, readU32 buf 36, vs⟩) := by
  unfold decode
  rw [if_neg h1, if_pos h2, if_neg (show ¬ readU32 buf 8 = RECV_ID_OPEN by
    rw [h3]; decide), if_pos h3, if_neg h4]
  split
  next heq =>
    rw [h5] at heq
    exact Option.noConfusion heq
  next l heq =>
    rw [h5] at heq
    injection heq with heq
    subst heq
    split
    next e heq2 =>
      rw [h6] at heq2
      exact Except.noConfusion heq2
    next vs2 heq2 =>
      rw [h6] at heq2
      injection heq2 with heq2
      subst heq2
      rfl

/-- C5: decoding a SimObjectData frame built by encoding conforming values
through a registered layout yields the original values exactly for Int32
and Float64 fields, and the original text up to the first NUL for
FixedString fields. -/
theorem encode_decode_roundtrip
    (reg : Nat → Option (List PrimitiveType))
    (version requestId objectId defineId flags entryNumber outOf
      defineCount : Nat)
    (layout : List PrimitiveType) (vals : List FieldInput)
    (hreg : reg defineId = some layout) (hdef : defineId < 2 ^ 32)
    (hconf : conformsList layout vals = true)
    (hsize : 40 + layoutWidth layout < 2 ^ 32) :
    decode reg (encodeSimObjectFrame version requestId objectId defineId
      flags entryNumber outOf defineCount layout vals) =
    .ok (.SimObjectData
      ⟨requestId % 2 ^ 32, objectId % 2 ^ 32, defineId, flags % 2 ^ 32,
       entryNumber % 2 ^ 32, outOf % 2 ^ 32, defineCount % 2 ^ 32,
       List.zipWith roundtripValue layout vals⟩) := by
  have hdf := decodeFields_encode layout vals hconf
  have hpl := encode_payload_length layout vals hconf
  obtain ⟨payload, hgen⟩ :
      ∃ p, (List.zipWith encodeField layout vals).flatten = p := ⟨_, rfl⟩
  rw [hgen] at hdf hpl
  rw [show encodeSimObjectFrame version requestId objectId defineId flags
      entryNumber outOf defineCount layout vals =
    encodeU32s [40 + payload.length, version, RECV_ID_SIMOBJECT_DATA,
      requestId, objectId, defineId, flags, entryNumber, outOf,
      defineCount] ++ payload by
    unfold encodeSimObjectFrame
    rw [hgen]]
  obtain ⟨hb0, hb8r, hb12, hb16, hb20r, hb24, hb28, hb32, hb36, hbdrop⟩ :=
    readU32_frame (40 + payload.length) version RECV_ID_SIMOBJECT_DATA
      requestId objectId defineId flags entryNumber outOf defineCount payload
  have hblen : (encodeU32s [40 + payload.length, version,
      RECV_ID_SIMOBJECT_DATA, requestId, objectId, defineId, flags,
      entryNumber, outOf, defineCount] ++ payload).length =
      40 + payload.length := by
    rw [List.length_append, encodeU32s_length]
    simp
  have hb8 : readU32 (encodeU32s [40 + payload.length, version,
      RECV_ID_SIMOBJECT_DATA, requestId, objectId, defineId, flags,
      entryNumber, outOf, defineCount] ++ payload) 8 =
      RECV_ID_SIMOBJECT_DATA := by
    rw [hb8r]
    decide
  have hb20 : readU32 (encodeU32s [40 + payload.length, version,
      RECV_ID_SIMOBJECT_DATA, requestId, objectId, defineId, flags,
      entryNumber, outOf, defineCount] ++ payload) 20 = defineId := by
    rw [hb20r]
    exact Nat.mod_eq_of_lt hdef
  have base := decode_simobject reg
    (encodeU32s [40 + payload.length, version, RECV_ID_SIMOBJECT_DATA,
      requestId, objectId, defineId, flags, entryNumber, outOf,
      defineCount] ++ payload)
    (by rw [hblen]; omega)
    (by rw [hb0, hblen, hpl]; omega)
    hb8
    (by rw [hblen]; omega)
    layout (by rw [hb20]; exact hreg)
    (List.zipWith roundtripValue layout vals)
    (by rw [hbdrop]; exact hdf)
  rw [hb12, hb16, hb20, hb24, hb28, hb32, hb36] at base
  exact base

/-- Witness for C5 at a concrete layout with one field of each primitive
shape: an Int32 holding -5, a Float64 pattern, and a 4-byte FixedString
holding text with an embedded NUL. -/
theorem encode_decode_roundtrip_witness :
    ((fun d => if d = 3 then
        some [PrimitiveType.Int32, PrimitiveType.Float64,
              PrimitiveType.FixedString 4] else none) 3 =
      some [PrimitiveType.Int32, PrimitiveType.Float64,
            PrimitiveType.FixedString 4]) ∧
    (3 : Nat) < 2 ^ 32 ∧
    conformsList [PrimitiveType.Int32, PrimitiveType.Float64,
        PrimitiveType.FixedString 4]
      [FieldInput.int32 (-5), FieldInput.float64 1,
       FieldInput.fixedString [65, 0, 66]] = true ∧
    40 + layoutWidth [PrimitiveType.Int32, PrimitiveType.Float64,
        PrimitiveType.FixedString 4] < 2 ^ 32 ∧
    decode (fun d => if d = 3 then
        some [PrimitiveType.Int32, PrimitiveType.Float64,
              PrimitiveType.FixedString 4] else none)
      (encodeSimObjectFrame 1 5 0 3 0 1 1 3
        [PrimitiveType.Int32, PrimitiveType.Float64,
         PrimitiveType.FixedString 4]
        [FieldInput.int32 (-5), FieldInput.float64 1,
         FieldInput.fixedString [65, 0, 66]]) =
      .ok (.SimObjectData
        ⟨5 % 2 ^ 32, 0 % 2 ^ 32, 3, 0 % 2 ^ 32, 1 % 2 ^ 32, 1 % 2 ^ 32,
         3 % 2 ^ 32,
         List.zipWith roundtripValue
           [PrimitiveType.Int32, PrimitiveType.Float64,
            PrimitiveType.FixedString 4]
           [FieldInput.int32 (-5), FieldInput.float64 1,
            FieldInput.fixedString [65, 0, 66]]⟩) :=
  ⟨by decide, by decide, by decide, by decide,
   encode_decode_roundtrip
     (fun d => if d = 3 then
        some [PrimitiveType.Int32, PrimitiveType.Float64,
              PrimitiveType.FixedString 4] else none)
     1 5 0 3 0 1 1 3
     [PrimitiveType.Int32, PrimitiveType.Float64,
      PrimitiveType.FixedString 4]
     [FieldInput.int32 (-5), FieldInput.float64 1,
      FieldInput.fixedString [65, 0, 66]]
     (by decide) (by decide) (by decide) (by decide)⟩

/-! ## Session cancellation lemmas -/

theorem applyStep_no_id (s : Session) (id : Nat) (st : SessionStep)
    (h1 : id ∉ s.active) (h2 : id ∉ s.queue)
    (hst : requestsFor id st = false) :
    id ∉ (applyStep s st).active ∧ id ∉ (applyStep s st).queue := by
  cases st with
  | deliver j =>
    simp only [applyStep]
    split
    next hj =>
      refine ⟨h1, ?_⟩
      intro hm
      rw [List.mem_append] at hm
      cases hm with
      | inl hm => exact h2 hm
      | inr hm =>
        simp only [List.mem_singleton] at hm
        subst hm
        exact h1 hj
    next hj => exact ⟨h1, h2⟩
  | request j p =>
    have hji : j ≠ id := by simpa [requestsFor] using hst
    cases p with
    | NEVER =>
      simp only [applyStep, requestData]
      constructor
      · intro hm; rw [List.mem_filter] at hm; exact h1 hm.1
      · intro hm; rw [List.mem_filter] at hm; exact h2 hm.1
    | ONCE =>
      simp only [applyStep, requestData]
      refine ⟨h1, ?_⟩
      intro hm
      rw [List.mem_append] at hm
      cases hm with
      | inl hm => exact h2 hm
      | inr hm =>
        simp only [List.mem_singleton] at hm
        exact hji hm.symm
    | VISUAL_FRAME =>
      simp only [applyStep, requestData]
      refine ⟨?_, h2⟩
      intro hm
      rw [List.mem_cons] at hm
      cases hm with
      | inl hm => exact hji hm.symm
      | inr hm => exact h1 hm
    | SIM_FRAME =>
      simp only [applyStep, requestData]
      refine ⟨?_, h2⟩
      intro hm
      rw [List.mem_cons] at hm
      cases hm with
      | inl hm => exact hji hm.symm
      | inr hm => exact h1 hm
    | SECOND =>
      simp only [applyStep, requestData]
      refine ⟨?_, h2⟩
      intro hm
      rw [List.mem_cons] at hm
      cases hm with
      | inl hm => exact hji hm.symm
      | inr hm => exact h1 hm
  | drainOne =>
    simp only [applyStep]
    exact ⟨h1, fun hm => h2 (List.mem_of_mem_tail hm)⟩

theorem applySteps_no_id (id : Nat) (steps : List SessionStep) :
    ∀ s : Session, id ∉ s.active → id ∉ s.queue →
    noRequestFor id steps = true →
    id ∉ (applySteps s steps).active ∧ id ∉ (applySteps s steps).queue := by
  induction steps with
  | nil => exact fun s h1 h2 _ => ⟨h1, h2⟩
  | cons st sts ih =>
    intro s h1 h2 hn
    have hn' : requestsFor id st = false ∧ noRequestFor id sts = true := by
      simpa [noRequestFor, List.all_cons, Bool.and_eq_true] using hn
    have hstep := applyStep_no_id s id st h1 h2 hn'.1
    exact ih (applyStep s st) hstep.1 hstep.2 hn'.2

/-- C8: the period argument belongs to the closed five-member
SIMCONNECT_PERIOD set with codes 0 to 4, and a requestData call with period
NEVER for a requestId cancels it: as long as no later step requests that
requestId again, every subsequent poll for it returns NoneAvailable,
whatever the external source delivers and however often the pump drains. -/
theorem period_never_cancels :
    (∀ p : SIMCONNECT_PERIOD,
      p = .NEVER ∨ p = .ONCE ∨ p = .VISUAL_FRAME ∨ p = .SIM_FRAME ∨
      p = .SECOND) ∧
    ([SIMCONNECT_PERIOD.NEVER, .ONCE, .VISUAL_FRAME, .SIM_FRAME,
      .SECOND].map SIMCONNECT_PERIOD.code = [0, 1, 2, 3, 4]) ∧
    (∀ (s : Session) (id : Nat) (steps : List SessionStep),
      noRequestFor id steps = true →
      pollFor (applySteps (requestData s id .NEVER) steps) id =
        .NoneAvailable) := by
  refine ⟨?_, rfl, ?_⟩
  · intro p; cases p <;> simp
  · intro s id steps hn
    have hstart : id ∉ (requestData s id .NEVER).active ∧
        id ∉ (requestData s id .NEVER).queue := by
      constructor <;>
      · intro hm
        simp only [requestData] at hm
        rw [List.mem_filter] at hm
        simp at hm
    have hinv := applySteps_no_id id steps (requestData s id .NEVER)
      hstart.1 hstart.2 hn
    rw [pollFor, if_neg hinv.2]

/-- Witness for C8 at a concrete session: requestId 5 had a periodic
subscription and a queued event; after cancellation, a delivery attempt, an
unrelated one-shot request and a drain, polling for 5 yields
NoneAvailable. -/
theorem period_never_cancels_witness :
    noRequestFor 5 [SessionStep.deliver 5,
      SessionStep.request 6 SIMCONNECT_PERIOD.ONCE,
      SessionStep.drainOne] = true ∧
    pollFor (applySteps (requestData ⟨[5], [5]⟩ 5 SIMCONNECT_PERIOD.NEVER)
      [SessionStep.deliver 5, SessionStep.request 6 SIMCONNECT_PERIOD.ONCE,
       SessionStep.drainOne]) 5 = PollOutcome.NoneAvailable :=
  ⟨by decide, period_never_cancels.2.2 ⟨[5], [5]⟩ 5
    [SessionStep.deliver 5, SessionStep.request 6 SIMCONNECT_PERIOD.ONCE,
     SessionStep.drainOne] (by decide)⟩

/-! ## Registry identifier lemmas -/

theorem registerN_nextId (k : Nat) : (registerN k).nextId = k := by
  induction k with
  | zero => rfl
  | succ k ih => simp [registerN, SchemaRegistry.register, ih]

theorem registerN_assigned (k : Nat) :
    ∀ id ∈ (registerN k).assigned, ∃ i, i < k ∧ id = i % 2 ^ 32 := by
  induction k with
  | zero =>
    intro id h
    simp [registerN, SchemaRegistry.empty] at h
  | succ k ih =>
    intro id h
    rw [show (registerN (k + 1)).assigned =
      (registerN k).nextId % 2 ^ 32 :: (registerN k).assigned from rfl,
      List.mem_cons] at h
    cases h with
    | inl h => exact ⟨k, by omega, by rw [h, registerN_nextId]⟩
    | inr h =>
      obtain ⟨i, hi, hid⟩ := ih id h
      exact ⟨i, by omega, hid⟩

/-- C9: the reserved object id 0 denotes the user aircraft and 0xFFFFFFFF
is the unused sentinel; they are distinct, and within any session of at
most SIMCONNECT_UNUSED registrations, no identifier the registry assigns
ever equals the sentinel. -/
theorem sentinel_ids :
    SIMCONNECT_OBJECT_ID_USER = 0 ∧
    SIMCONNECT_UNUSED = 2 ^ 32 - 1 ∧
    SIMCONNECT_OBJECT_ID_USER ≠ SIMCONNECT_UNUSED ∧
    (∀ k id, k ≤ SIMCONNECT_UNUSED → id ∈ (registerN k).assigned →
      id ≠ SIMCONNECT_UNUSED) := by
  refine ⟨rfl, by decide, by decide, ?_⟩
  intro k id hk hmem
  obtain ⟨i, hik, hid⟩ := registerN_assigned k id hmem
  subst hid
  simp only [SIMCONNECT_UNUSED] at hk ⊢
  omega

/-- Witness for C9: after three registrations the identifier 1 was
assigned, and it is not the sentinel. -/
theorem sentinel_ids_witness :
    (3 : Nat) ≤ SIMCONNECT_UNUSED ∧ (1 : Nat) ∈ (registerN 3).assigned ∧
    (1 : Nat) ≠ SIMCONNECT_UNUSED :=
  ⟨by decide, by decide, sentinel_ids.2.2.2 3 1 (by decide) (by decide)⟩

end SkyTrack
